import Mathlib

/-!
# compressionid: blind detection of a compression scheme

Shallow embedding of `TryExtract` from `compressionid.go`.

`TryExtract` reads its input completely and then tries five decoders in a fixed order
(zlib, raw deflate, LZO1x, LZ4 block, LZW LSB-8).  The decoders live in other packages
(`compress/zlib`, `compress/flate`, `compress/lzw`, `github.com/pierrec/lz4/v4`,
`github.com/rasky/go-lzo`); they are parameters of the embedding (`Decoders`), each one a
deterministic function of the bytes it is handed.  Everything `TryExtract` itself does with
them is modelled: the shared `bytes.Buffer` of the zlib and deflate attempts, the scratch
buffers of 1024*1024 bytes, the slice expressions on them (which panic when out of range),
the single `Read` of the LZW attempt, and the values of the three results.

`TryExtract` gives the three results of a call.  `TryExtractCall` is the same code with the
state outside the call made explicit: the package-level logger state set by `InitLogging`,
and the lines the call hands to the logger and prints, in program order.
-/

namespace Compressionid

/-! ## Go values -/

/-- Go `error` values, as far as `TryExtract` can tell them apart. -/
inductive GoError where
  /-- the sentinel `io.EOF` -/
  | eof
  /-- any other error value handed out by a reader or by a decoding library -/
  | lib (msg : String)
  /-- an error value built by `fmt.Errorf` inside `TryExtract` -/
  | errorf (msg : String)
  deriving DecidableEq, Repr

/-- Source: `type CompressionKind int`. -/
abbrev CompressionKind := Int

/-- Source: `ZLib CompressionKind = iota`. -/
def ZLib : CompressionKind := 0
/-- Source: second constant of the `iota` block. -/
def Deflate : CompressionKind := 1
/-- Source: third constant of the `iota` block. -/
def LZO1X : CompressionKind := 2
/-- Source: fourth constant of the `iota` block. -/
def LZ4 : CompressionKind := 3
/-- Source: fifth constant of the `iota` block (LSB, 8-bit). -/
def LZW_LSB8 : CompressionKind := 4

/-- Behaviour of a terminating Go `io.Reader`, as seen by its caller: the byte chunks delivered
by the `Read` calls that returned a nil error, in order, followed by the first `Read` call that
returned a non-nil error, with the bytes that call delivered (`last`) and its error (`err`,
`io.EOF` for a clean end of stream). -/
structure Reader where
  chunks : List (List UInt8)
  last : List UInt8
  err : GoError
  deriving DecidableEq, Repr

/-- One `Read` call on a fresh reader: the bytes delivered (their number is the count that
`Read` returns) and the error. -/
def Reader.Read (r : Reader) : List UInt8 × Option GoError :=
  match r.chunks with
  | c :: _ => (c, none)
  | [] => (r.last, some r.err)

/-- Everything the reader delivers when it is read until its first non-nil error. -/
def Reader.drained (r : Reader) : List UInt8 :=
  r.chunks.flatten ++ r.last

/-- Go `io.ReadAll`: reads until the first error; `io.EOF` is reported as nil. -/
def ioReadAll (r : Reader) : List UInt8 × Option GoError :=
  (r.drained, if r.err = GoError.eof then none else some r.err)

/-- Go `io.Copy(&b, src)` for a `bytes.Buffer` holding `b`: every byte delivered is appended to
the buffer, also the bytes delivered before (or together with) an error; `io.EOF` is reported
as nil.  The result is the buffer contents afterwards and the error. -/
def ioCopy (b : List UInt8) (src : Reader) : List UInt8 × Option GoError :=
  (b ++ src.drained, if src.err = GoError.eof then none else some src.err)

/-- A Go byte slice of length `n` handed to a callee: the callee may change the contents, not
the length. -/
abbrev Buf (n : Nat) := { l : List UInt8 // l.length = n }

/-- Go `make([]byte, n)`: `n` zero bytes. -/
def makeBytes (n : Nat) : Buf n :=
  ⟨List.replicate n 0, List.length_replicate n 0⟩

/-- Bit order argument of `lzw.NewReader`. -/
inductive Order where
  | LSB
  | MSB
  deriving DecidableEq, Repr

/-- The five external decoders called by `TryExtract`.

* `zlibNewReader data` is `zlib.NewReader(bytes.NewReader(data))`: an error (header rejected)
  or a reader of the decompressed stream;
* `flateNewReader data` is `flate.NewReader(bytes.NewReader(data))`;
* `lzoDecompress1X data inLen outLen` is `lzo.Decompress1X(bytes.NewReader(data), inLen, outLen)`;
* `lz4UncompressBlock src n dst` is `lz4.UncompressBlock(src, dst)` with `len(dst) = n`: the
  contents of `dst` afterwards, the count and the error;
* `lzwNewReader data order litWidth` is `lzw.NewReader(bytes.NewReader(data), order, litWidth)`. -/
structure Decoders where
  zlibNewReader : List UInt8 → Except GoError Reader
  flateNewReader : List UInt8 → Reader
  lzoDecompress1X : List UInt8 → Int → Int → List UInt8 × Option GoError
  lz4UncompressBlock : List UInt8 → (n : Nat) → Buf n → Buf n × Int × Option GoError
  lzwNewReader : List UInt8 → Order → Int → Reader

/-- What a call of `TryExtract` does: it returns its three results, or it panics (a slice
expression out of range).  In `ret kind bytes err`, `bytes = none` is the literal `nil` of
the source and `bytes = some l` is a slice with contents `l`; `err = none` is a nil error. -/
inductive Outcome where
  | ret (kind : CompressionKind) (bytes : Option (List UInt8)) (err : Option GoError)
  | panic
  deriving DecidableEq, Repr

/-! ## TryExtract -/

/-- Length of both scratch buffers, source: `make([]byte, 1024*1024)`. -/
def scratchLen : Nat := 1024 * 1024

/-- The error of the last line, source: `fmt.Errorf("no compression recognized")`. -/
def errNoCompression : GoError := GoError.errorf "no compression recognized"

/-- Source lines 97-111: the LZW attempt and the final error.  One `Read` into a scratch
buffer of `scratchLen` bytes; `output[:count]` panics when `count` exceeds the length. -/
def tryLZW (d : Decoders) (data : List UInt8) : Outcome :=
  let dec := d.lzwNewReader data Order.LSB 8
  let output := makeBytes scratchLen
  match dec.Read with
  | (chunk, none) =>
    let count := chunk.length
    if count ≤ scratchLen then
      Outcome.ret LZW_LSB8 (some ((chunk ++ output.val.drop count).take count)) none
    else Outcome.panic
  | (_, some _) => Outcome.ret 0 none (some errNoCompression)

/-- Source lines 88-95: the LZ4 attempt.  `expanded[0:n]` panics unless `0 ≤ n ≤ scratchLen`. -/
def tryLZ4 (d : Decoders) (data : List UInt8) : Outcome :=
  match d.lz4UncompressBlock data scratchLen (makeBytes scratchLen) with
  | (expanded, n, none) =>
    if 0 ≤ n ∧ n ≤ (scratchLen : Int) then
      Outcome.ret LZ4 (some (expanded.val.take n.toNat)) none
    else Outcome.panic
  | (_, _, some _) => tryLZW d data

/-- Source lines 80-86: the LZO1x attempt, called without length hints. -/
def tryLZO1X (d : Decoders) (data : List UInt8) : Outcome :=
  match d.lzoDecompress1X data 0 0 with
  | (expanded, none) => Outcome.ret LZO1X (some expanded) none
  | (_, some _) => tryLZ4 d data

/-- Source lines 71-78: the raw deflate attempt.  `b` is the contents of the buffer declared
on line 57 when this attempt starts; the stream is copied into that same buffer. -/
def tryDeflate (d : Decoders) (data : List UInt8) (b : List UInt8) : Outcome :=
  match ioCopy b (d.flateNewReader data) with
  | (b1, none) => Outcome.ret Deflate (some b1) none
  | (_, some _) => tryLZO1X d data

/-- Source lines 57-69: the zlib attempt, into the empty buffer `b`. -/
def tryZLib (d : Decoders) (data : List UInt8) : Outcome :=
  match d.zlibNewReader data with
  | Except.ok reader =>
    match ioCopy [] reader with
    | (b, none) => Outcome.ret ZLib (some b) none
    | (b, some _) => tryDeflate d data b
  | Except.error _ => tryDeflate d data []

/-- Source: `func TryExtract(r io.Reader) (CompressionKind, []byte, error)`. -/
def TryExtract (d : Decoders) (r : Reader) : Outcome :=
  match ioReadAll r with
  | (_, some err) => Outcome.ret 0 none (some err)
  | (data, none) => tryZLib d data

/-! ## TryExtract with the state around the call -/

/-- Source: `zerolog.InfoLevel`, a `zerolog.Level`. -/
def InfoLevel : Int := 1

/-- Source: the level of `log.Error()`, `zerolog.ErrorLevel`. -/
def ErrorLevel : Int := 3

/-- An effect of a call that is visible outside it: a line handed to the global logger
(`log.Error().Err(err).Msgf(msg)` or `log.Info().Msgf(msg)`), or one of the two lines that the
LZW attempt prints on standard output. -/
inductive Event where
  | log (level : Int) (err : Option GoError) (msg : String)
  | printRead (count : Nat)
  | printOutput (bytes : List UInt8)
  deriving DecidableEq, Repr

/-- The state that outlives a call: the global level of zerolog and whether `log.Logger` is
the console logger (both set by `InitLogging`), and the effects so far. -/
structure World where
  globalLevel : Int
  consoleLogger : Bool
  events : List Event
  deriving DecidableEq, Repr

/-- Source: `func InitLogging()`. -/
def InitLogging (w : World) : World :=
  World.mk InfoLevel true w.events

/-- Adds one effect to the state. -/
def World.emit (w : World) (e : Event) : World :=
  World.mk w.globalLevel w.consoleLogger (w.events ++ [e])

/-- The state `w2` keeps the logger state of `w` and has the effects of `w` followed by
further ones. -/
def World.extendedBy (w w2 : World) : Prop :=
  w2.globalLevel = w.globalLevel ∧ w2.consoleLogger = w.consoleLogger
  ∧ ∃ evs : List Event, w2.events = w.events ++ evs

/-- Source lines 97-111 with their effects. -/
def callLZW (d : Decoders) (data : List UInt8) (w : World) : Outcome × World :=
  let dec := d.lzwNewReader data Order.LSB 8
  let output := makeBytes scratchLen
  match dec.Read with
  | (chunk, none) =>
    let count := chunk.length
    let w1 := w.emit (Event.printRead count)
    if count ≤ scratchLen then
      let w2 := w1.emit (Event.printOutput ((chunk ++ output.val.drop count).take count))
      let w3 := w2.emit (Event.log InfoLevel none "Detected LZW compression")
      (Outcome.ret LZW_LSB8 (some ((chunk ++ output.val.drop count).take count)) none, w3)
    else (Outcome.panic, w1)
  | (_, some err) =>
    (Outcome.ret 0 none (some errNoCompression),
      w.emit (Event.log ErrorLevel (some err) "LZW extraction failed"))

/-- Source lines 88-95 with their effects. -/
def callLZ4 (d : Decoders) (data : List UInt8) (w : World) : Outcome × World :=
  match d.lz4UncompressBlock data scratchLen (makeBytes scratchLen) with
  | (expanded, n, none) =>
    let w1 := w.emit (Event.log InfoLevel none "Detected LZ4 compression")
    if 0 ≤ n ∧ n ≤ (scratchLen : Int) then
      (Outcome.ret LZ4 (some (expanded.val.take n.toNat)) none, w1)
    else (Outcome.panic, w1)
  | (_, _, some err) =>
    callLZW d data (w.emit (Event.log ErrorLevel (some err) "LZ4 extraction failed"))

/-- Source lines 80-86 with their effects. -/
def callLZO1X (d : Decoders) (data : List UInt8) (w : World) : Outcome × World :=
  match d.lzoDecompress1X data 0 0 with
  | (expanded, none) =>
    (Outcome.ret LZO1X (some expanded) none,
      w.emit (Event.log InfoLevel none "Detected LZO1X compression"))
  | (_, some err) =>
    callLZ4 d data (w.emit (Event.log ErrorLevel (some err) "LZO extraction failed"))

/-- Source lines 71-78 with their effects. -/
def callDeflate (d : Decoders) (data : List UInt8) (b : List UInt8) (w : World) :
    Outcome × World :=
  match ioCopy b (d.flateNewReader data) with
  | (b1, none) => (Outcome.ret Deflate (some b1) none, w)
  | (_, some err) =>
    callLZO1X d data (w.emit (Event.log ErrorLevel (some err) "DEFLATE extraction failed"))

/-- Source lines 57-69 with their effects. -/
def callZLib (d : Decoders) (data : List UInt8) (w : World) : Outcome × World :=
  match d.zlibNewReader data with
  | Except.ok reader =>
    match ioCopy [] reader with
    | (b, none) => (Outcome.ret ZLib (some b) none, w)
    | (b, some err) =>
      callDeflate d data b (w.emit (Event.log ErrorLevel (some err) "ZLIB extraction failed"))
  | Except.error err =>
    callDeflate d data [] (w.emit (Event.log ErrorLevel (some err) "ZLIB reading failed"))

/-- Source: `func TryExtract`, as a call in state `w`: the outcome and the state after the
call. -/
def TryExtractCall (d : Decoders) (w : World) (r : Reader) : Outcome × World :=
  match ioReadAll r with
  | (_, some err) => (Outcome.ret 0 none (some err), w)
  | (data, none) => callZLib d data w

/-! ## Acceptance, as the source decides it -/

/-- Contents of the shared buffer `b` when the zlib attempt is over: everything the zlib
stream delivered, nothing when the header was rejected. -/
def zlibWritten (d : Decoders) (data : List UInt8) : List UInt8 :=
  match d.zlibNewReader data with
  | Except.ok reader => reader.drained
  | Except.error _ => []

/-- The zlib attempt succeeds: the header is accepted and the stream reaches `io.EOF`. -/
def zlibAccepts (d : Decoders) (data : List UInt8) : Bool :=
  match d.zlibNewReader data with
  | Except.ok reader => decide (reader.err = GoError.eof)
  | Except.error _ => false

/-- The raw deflate attempt succeeds: the stream reaches `io.EOF`. -/
def deflateAccepts (d : Decoders) (data : List UInt8) : Bool :=
  decide ((d.flateNewReader data).err = GoError.eof)

/-- The LZO1x attempt succeeds: `Decompress1X` returns a nil error. -/
def lzoAccepts (d : Decoders) (data : List UInt8) : Bool :=
  (d.lzoDecompress1X data 0 0).2.isNone

/-- The LZ4 attempt succeeds: `UncompressBlock` on the scratch buffer returns a nil error. -/
def lz4Accepts (d : Decoders) (data : List UInt8) : Bool :=
  (d.lz4UncompressBlock data scratchLen (makeBytes scratchLen)).2.2.isNone

/-- The LZW attempt succeeds: the first `Read` returns a nil error. -/
def lzwAccepts (d : Decoders) (data : List UInt8) : Bool :=
  (d.lzwNewReader data Order.LSB 8).Read.2.isNone

/-- Acceptance of the input by the decoder of kind `k`, in the sense of the test that
`TryExtract` applies to it; no decoder belongs to a value outside the five constants. -/
def accepts (d : Decoders) (data : List UInt8) (k : CompressionKind) : Bool :=
  if k = ZLib then zlibAccepts d data
  else if k = Deflate then deflateAccepts d data
  else if k = LZO1X then lzoAccepts d data
  else if k = LZ4 then lz4Accepts d data
  else if k = LZW_LSB8 then lzwAccepts d data
  else false

/-- The decoders of kinds up to `k` behave alike in `d` and `d2` on `data`, called the way
`TryExtract` calls them; nothing is said about the decoders after `k`. -/
def agreeUpTo (k : CompressionKind) (d d2 : Decoders) (data : List UInt8) : Prop :=
  d.zlibNewReader data = d2.zlibNewReader data
  ∧ (Deflate ≤ k → d.flateNewReader data = d2.flateNewReader data)
  ∧ (LZO1X ≤ k → d.lzoDecompress1X data 0 0 = d2.lzoDecompress1X data 0 0)
  ∧ (LZ4 ≤ k → d.lz4UncompressBlock data scratchLen (makeBytes scratchLen)
        = d2.lz4UncompressBlock data scratchLen (makeBytes scratchLen))
  ∧ (LZW_LSB8 ≤ k → d.lzwNewReader data Order.LSB 8 = d2.lzwNewReader data Order.LSB 8)

/-- The count and the first-Read chunk of the LZ4 and LZW attempts stay within the scratch
buffer, as the contracts of `lz4.UncompressBlock` and of `io.Reader` promise. -/
def countsInBounds (d : Decoders) (data : List UInt8) : Prop :=
  (0 ≤ (d.lz4UncompressBlock data scratchLen (makeBytes scratchLen)).2.1
    ∧ (d.lz4UncompressBlock data scratchLen (makeBytes scratchLen)).2.1 ≤ (scratchLen : Int))
  ∧ (d.lzwNewReader data Order.LSB 8).Read.1.length ≤ scratchLen

/-! ## Decoder suites for concrete evaluation -/

/-- Writes `p` at the start of `dst`. -/
def Buf.write {n : Nat} (dst : Buf n) (p : List UInt8) (h : p.length ≤ n) : Buf n :=
  ⟨p ++ dst.val.drop p.length, by
    rw [List.length_append, List.length_drop, dst.property]; omega⟩

/-- A block decoder with a fixed verdict: with payload `p` it writes `p` into the destination
and returns its length, or reports an error when the destination is shorter than `p`; with
an error it reports that error. -/
def lz4Fixed (res : Except GoError (List UInt8)) (n : Nat) (dst : Buf n) :
    Buf n × Int × Option GoError :=
  match res with
  | Except.ok p =>
    if h : p.length ≤ n then (dst.write p h, (p.length : Int), none)
    else (dst, 0, some (GoError.lib "lz4: invalid source or destination buffer too short"))
  | Except.error e => (dst, 0, some e)

/-- A decoder suite given by the verdict of each of the five decoders. -/
def fixedDecoders (z : Except GoError Reader) (f : Reader) (lzo : List UInt8 × Option GoError)
    (lz4 : Except GoError (List UInt8)) (lzw : Reader) : Decoders :=
  Decoders.mk (fun _ => z) (fun _ => f) (fun _ _ _ => lzo) (fun _ => lz4Fixed lz4)
    (fun _ _ _ => lzw)

/-- A reader that delivers `data` in one chunk and then ends. -/
def bytesReader (data : List UInt8) : Reader :=
  Reader.mk [data] [] GoError.eof

/-- A stream that fails at once, delivering nothing. -/
def failingStream (msg : String) : Reader :=
  Reader.mk [] [] (GoError.lib msg)

/-- The block decoder reports an error whenever the destination is shorter than `trueSize`,
the decompressed size of `src` (documented behaviour of `lz4.UncompressBlock`). -/
def lz4ShortBufferContract (d : Decoders) (src : List UInt8) (trueSize : Nat) : Prop :=
  ∀ (n : Nat) (dst : Buf n), n < trueSize → (d.lz4UncompressBlock src n dst).2.2 ≠ none

/-- A raw deflate stream of one stored block holding "the quick brown fox". -/
def foxInput : List UInt8 :=
  [0x01, 0x13, 0x00, 0xEC, 0xFF, 0x74, 0x68, 0x65, 0x20, 0x71, 0x75, 0x69, 0x63, 0x6B, 0x20,
   0x62, 0x72, 0x6F, 0x77, 0x6E, 0x20, 0x66, 0x6F, 0x78]

/-- The bytes of "the quick brown fox". -/
def foxText : List UInt8 :=
  [0x74, 0x68, 0x65, 0x20, 0x71, 0x75, 0x69, 0x63, 0x6B, 0x20,
   0x62, 0x72, 0x6F, 0x77, 0x6E, 0x20, 0x66, 0x6F, 0x78]

/-- Decoder verdicts for `foxInput`: zlib rejects the header, raw deflate decodes the text;
the remaining decoders are not reached and are set to reject. -/
def foxSuite : Decoders :=
  fixedDecoders (Except.error (GoError.lib "zlib: invalid header"))
    (Reader.mk [] foxText GoError.eof)
    ([], some (GoError.lib "lzo: rejected")) (Except.error (GoError.lib "lz4: rejected"))
    (failingStream "lzw: invalid code")

/-- Like `foxSuite`, with an LZO1x decoder that accepts as well. -/
def foxSuiteLzoToo : Decoders :=
  fixedDecoders (Except.error (GoError.lib "zlib: invalid header"))
    (Reader.mk [] foxText GoError.eof)
    ([0x2A], none) (Except.error (GoError.lib "lz4: rejected"))
    (failingStream "lzw: invalid code")

/-- A suite in which every decoder rejects. -/
def rejectingSuite : Decoders :=
  fixedDecoders (Except.error (GoError.lib "zlib: invalid header"))
    (failingStream "flate: corrupt input") ([], some (GoError.lib "lzo: rejected"))
    (Except.error (GoError.lib "lz4: rejected")) (failingStream "lzw: invalid code")

/-- A reader that delivers two bytes and then fails. -/
def brokenReader : Reader :=
  Reader.mk [[0x78, 0x9C]] [] (GoError.lib "read: connection reset")

/-- Sixteen bytes that are a zlib header followed by a stored block announcing 65534 bytes
of which 9 are present, and at the same time a complete raw deflate stream of three stored
blocks holding the single byte 01. -/
def storedBlocksInput : List UInt8 :=
  [0x78, 0x01, 0x00, 0xFE, 0xFF, 0x01, 0x00, 0x00, 0x00, 0xFF, 0xFF, 0x01, 0x00, 0x00, 0xFF, 0xFF]

/-- Decoder verdicts for `storedBlocksInput`: zlib accepts the header, delivers the 9 bytes
of the cut-off stored block and fails; raw deflate delivers the byte 01 and ends cleanly;
the remaining decoders are not reached and are set to reject. -/
def storedBlocksSuite : Decoders :=
  fixedDecoders
    (Except.ok (Reader.mk [] [0x00, 0x00, 0xFF, 0xFF, 0x01, 0x00, 0x00, 0xFF, 0xFF]
      (GoError.lib "unexpected EOF")))
    (Reader.mk [[0x01]] [] GoError.eof)
    ([], some (GoError.lib "lzo: rejected")) (Except.error (GoError.lib "lz4: rejected"))
    (failingStream "lzw: invalid code")

/-- Two bytes: the 9-bit LZW code of the literal 41, followed by 7 bits, too few for a
second code. -/
def lzwCutInput : List UInt8 := [0x41, 0x00]

/-- Decoder verdicts for `lzwCutInput`: the four earlier decoders reject; the LZW reader
delivers the literal on its first `Read` and fails on the next one. -/
def lzwCutSuite : Decoders :=
  fixedDecoders (Except.error (GoError.lib "zlib: invalid header"))
    (failingStream "unexpected EOF") ([], some (GoError.lib "lzo: input underrun"))
    (Except.error (GoError.lib "lz4: invalid source"))
    (Reader.mk [[0x41]] [] (GoError.lib "unexpected EOF"))

/-- An LZW reader verdict in two chunks, for an input whose earlier decoders reject. -/
def lzwTwoChunkSuite : Decoders :=
  fixedDecoders (Except.error (GoError.lib "zlib: invalid header"))
    (failingStream "unexpected EOF") ([], some (GoError.lib "lzo: input underrun"))
    (Except.error (GoError.lib "lz4: invalid source"))
    (Reader.mk [[0x41, 0x42], [0x43]] [] GoError.eof)

/-- A payload one byte longer than the scratch buffer: 1,048,577 times the byte 61. -/
def lz4LargePayload : List UInt8 :=
  List.replicate (scratchLen + 1) 0x61

/-- An LZ4 block of `lz4LargePayload`: one literal, a match of 1,048,571 bytes at offset 1,
five closing literals. -/
def lz4LargeInput : List UInt8 :=
  [0x1F, 0x61, 0x01, 0x00] ++ List.replicate 4111 0xFF
    ++ [0xF7, 0x50, 0x61, 0x61, 0x61, 0x61, 0x61]

/-- Decoder verdicts for `lz4LargeInput`: the block decoder yields `lz4LargePayload` when
the destination has room for it and reports an error otherwise; the other decoders
reject. -/
def lz4LargeSuite : Decoders :=
  fixedDecoders (Except.error (GoError.lib "zlib: invalid header"))
    (failingStream "flate: corrupt input") ([], some (GoError.lib "lzo: rejected"))
    (Except.ok lz4LargePayload) (failingStream "lzw: invalid code")

/-- Decoder verdicts for the empty input: zlib and raw deflate miss their first bytes, LZO1x
fails at the end of the input, the LZ4 block decoder returns count 0 and a nil error; the LZW
decoder is not reached and is set to reject. -/
def emptyInputSuite : Decoders :=
  fixedDecoders (Except.error (GoError.lib "unexpected EOF"))
    (failingStream "unexpected EOF") ([], some GoError.eof)
    (Except.ok []) (failingStream "unexpected EOF")

/-- A state before any call: default level, default logger, no effects. -/
def freshWorld : World :=
  World.mk 0 false []

/-! ## The steps of TryExtract -/

theorem ioReadAll_bytesReader (data : List UInt8) : ioReadAll (bytesReader data) = (data, none) := by
  simp [ioReadAll, bytesReader, Reader.drained]

theorem TryExtract_of_read_ok (d : Decoders) (r : Reader) (h : (ioReadAll r).2 = none) :
    TryExtract d r = tryZLib d (ioReadAll r).1 := by
  unfold TryExtract
  split
  · rename_i e heq
    rw [heq] at h; simp at h
  · rename_i data heq
    rw [heq]

theorem TryExtract_of_read_err (d : Decoders) (r : Reader) (e : GoError)
    (h : (ioReadAll r).2 = some e) : TryExtract d r = Outcome.ret 0 none (some e) := by
  unfold TryExtract
  split
  · rename_i e2 heq
    rw [heq] at h; simp at h; rw [h]
  · rename_i data heq
    rw [heq] at h; simp at h

theorem tryZLib_accept (d : Decoders) (data : List UInt8) (h : zlibAccepts d data = true) :
    tryZLib d data = Outcome.ret ZLib (some (zlibWritten d data)) none := by
  unfold zlibAccepts at h
  unfold tryZLib zlibWritten
  cases hz : d.zlibNewReader data with
  | error e => rw [hz] at h; simp at h
  | ok rd => rw [hz] at h; simp at h; simp [ioCopy, h]

theorem tryZLib_reject (d : Decoders) (data : List UInt8) (h : zlibAccepts d data = false) :
    tryZLib d data = tryDeflate d data (zlibWritten d data) := by
  unfold zlibAccepts at h
  unfold tryZLib zlibWritten
  cases hz : d.zlibNewReader data with
  | error e => simp
  | ok rd => rw [hz] at h; simp at h; simp [ioCopy, h]

theorem tryDeflate_accept (d : Decoders) (data b : List UInt8)
    (h : deflateAccepts d data = true) :
    tryDeflate d data b = Outcome.ret Deflate (some (b ++ (d.flateNewReader data).drained)) none := by
  unfold deflateAccepts at h
  simp at h
  simp [tryDeflate, ioCopy, h]

theorem tryDeflate_reject (d : Decoders) (data b : List UInt8)
    (h : deflateAccepts d data = false) : tryDeflate d data b = tryLZO1X d data := by
  unfold deflateAccepts at h
  simp at h
  simp [tryDeflate, ioCopy, h]

theorem tryLZO1X_accept (d : Decoders) (data : List UInt8) (h : lzoAccepts d data = true) :
    tryLZO1X d data = Outcome.ret LZO1X (some (d.lzoDecompress1X data 0 0).1) none := by
  unfold lzoAccepts at h
  unfold tryLZO1X
  rcases hl : d.lzoDecompress1X data 0 0 with ⟨out, e⟩
  rw [hl] at h
  cases e <;> simp at h ⊢

theorem tryLZO1X_reject (d : Decoders) (data : List UInt8) (h : lzoAccepts d data = false) :
    tryLZO1X d data = tryLZ4 d data := by
  unfold lzoAccepts at h
  unfold tryLZO1X
  rcases hl : d.lzoDecompress1X data 0 0 with ⟨out, e⟩
  rw [hl] at h
  cases e <;> simp at h ⊢

theorem tryLZ4_accept (d : Decoders) (data : List UInt8) (h : lz4Accepts d data = true) :
    tryLZ4 d data =
      if 0 ≤ (d.lz4UncompressBlock data scratchLen (makeBytes scratchLen)).2.1
          ∧ (d.lz4UncompressBlock data scratchLen (makeBytes scratchLen)).2.1 ≤ (scratchLen : Int)
      then Outcome.ret LZ4 (some
        ((d.lz4UncompressBlock data scratchLen (makeBytes scratchLen)).1.val.take
          (d.lz4UncompressBlock data scratchLen (makeBytes scratchLen)).2.1.toNat)) none
      else Outcome.panic := by
  unfold lz4Accepts at h
  unfold tryLZ4
  rcases hl : d.lz4UncompressBlock data scratchLen (makeBytes scratchLen) with ⟨buf, n, e⟩
  rw [hl] at h
  cases e <;> simp at h ⊢

theorem tryLZ4_reject (d : Decoders) (data : List UInt8) (h : lz4Accepts d data = false) :
    tryLZ4 d data = tryLZW d data := by
  unfold lz4Accepts at h
  unfold tryLZ4
  rcases hl : d.lz4UncompressBlock data scratchLen (makeBytes scratchLen) with ⟨buf, n, e⟩
  rw [hl] at h
  cases e <;> simp at h ⊢

theorem tryLZW_accept (d : Decoders) (data : List UInt8) (h : lzwAccepts d data = true) :
    tryLZW d data =
      if (d.lzwNewReader data Order.LSB 8).Read.1.length ≤ scratchLen
      then Outcome.ret LZW_LSB8 (some (d.lzwNewReader data Order.LSB 8).Read.1) none
      else Outcome.panic := by
  unfold lzwAccepts at h
  rcases hl : (d.lzwNewReader data Order.LSB 8).Read with ⟨chunk, e⟩
  rw [hl] at h
  cases e <;> simp at h
  simp [tryLZW, hl]

theorem tryLZW_reject (d : Decoders) (data : List UInt8) (h : lzwAccepts d data = false) :
    tryLZW d data = Outcome.ret 0 none (some errNoCompression) := by
  unfold lzwAccepts at h
  rcases hl : (d.lzwNewReader data Order.LSB 8).Read with ⟨chunk, e⟩
  rw [hl] at h
  cases e <;> simp at h
  simp [tryLZW, hl]

/-! ## Acceptance and agreement lemmas -/

theorem accepts_true_cases (d : Decoders) (data : List UInt8) (j : CompressionKind)
    (h : accepts d data j = true) :
    (j = ZLib ∧ zlibAccepts d data = true) ∨ (j = Deflate ∧ deflateAccepts d data = true)
    ∨ (j = LZO1X ∧ lzoAccepts d data = true) ∨ (j = LZ4 ∧ lz4Accepts d data = true)
    ∨ (j = LZW_LSB8 ∧ lzwAccepts d data = true) := by
  unfold accepts at h
  split_ifs at h with h0 h1 h2 h3 h4
  · exact Or.inl ⟨h0, h⟩
  · exact Or.inr (Or.inl ⟨h1, h⟩)
  · exact Or.inr (Or.inr (Or.inl ⟨h2, h⟩))
  · exact Or.inr (Or.inr (Or.inr (Or.inl ⟨h3, h⟩)))
  · exact Or.inr (Or.inr (Or.inr (Or.inr ⟨h4, h⟩)))

theorem accepts_ZLib (d : Decoders) (data : List UInt8) :
    accepts d data ZLib = zlibAccepts d data := by
  simp [accepts]

theorem accepts_Deflate (d : Decoders) (data : List UInt8) :
    accepts d data Deflate = deflateAccepts d data := by
  simp [accepts, ZLib, Deflate]

theorem accepts_LZO1X (d : Decoders) (data : List UInt8) :
    accepts d data LZO1X = lzoAccepts d data := by
  simp [accepts, ZLib, Deflate, LZO1X]

theorem accepts_LZ4 (d : Decoders) (data : List UInt8) :
    accepts d data LZ4 = lz4Accepts d data := by
  simp [accepts, ZLib, Deflate, LZO1X, LZ4]

theorem accepts_LZW_LSB8 (d : Decoders) (data : List UInt8) :
    accepts d data LZW_LSB8 = lzwAccepts d data := by
  simp [accepts, ZLib, Deflate, LZO1X, LZ4, LZW_LSB8]

theorem zlibAccepts_congr (d d2 : Decoders) (data : List UInt8)
    (h : d.zlibNewReader data = d2.zlibNewReader data) :
    zlibAccepts d2 data = zlibAccepts d data ∧ zlibWritten d2 data = zlibWritten d data := by
  unfold zlibAccepts zlibWritten
  rw [h]
  exact ⟨rfl, rfl⟩

theorem deflateAccepts_congr (d d2 : Decoders) (data : List UInt8)
    (h : d.flateNewReader data = d2.flateNewReader data) :
    deflateAccepts d2 data = deflateAccepts d data := by
  unfold deflateAccepts
  rw [h]

theorem lzoAccepts_congr (d d2 : Decoders) (data : List UInt8)
    (h : d.lzoDecompress1X data 0 0 = d2.lzoDecompress1X data 0 0) :
    lzoAccepts d2 data = lzoAccepts d data := by
  unfold lzoAccepts
  rw [h]

theorem lz4Accepts_congr (d d2 : Decoders) (data : List UInt8)
    (h : d.lz4UncompressBlock data scratchLen (makeBytes scratchLen)
      = d2.lz4UncompressBlock data scratchLen (makeBytes scratchLen)) :
    lz4Accepts d2 data = lz4Accepts d data := by
  unfold lz4Accepts
  rw [h]

theorem lzwAccepts_congr (d d2 : Decoders) (data : List UInt8)
    (h : d.lzwNewReader data Order.LSB 8 = d2.lzwNewReader data Order.LSB 8) :
    lzwAccepts d2 data = lzwAccepts d data := by
  unfold lzwAccepts
  rw [h]

/-- The kind returned without error is the first one, in the order of the attempts, whose
decoder accepts; decoders after it do not matter. -/
theorem tryZLib_first_accepting (d : Decoders) (data : List UInt8) (k : CompressionKind)
    (out : Option (List UInt8)) (h : tryZLib d data = Outcome.ret k out none) :
    accepts d data k = true
    ∧ (∀ j : CompressionKind, accepts d data j = true → k ≤ j)
    ∧ (∀ d2 : Decoders, agreeUpTo k d d2 data → tryZLib d2 data = Outcome.ret k out none) := by
  cases hz : zlibAccepts d data with
  | true =>
    rw [tryZLib_accept d data hz] at h
    simp only [Outcome.ret.injEq] at h
    obtain ⟨hk, hout, -⟩ := h
    subst hk hout
    refine ⟨by rw [accepts_ZLib]; exact hz, ?_, ?_⟩
    · intro j hj
      rcases accepts_true_cases d data j hj with ⟨rfl, -⟩ | ⟨rfl, -⟩ | ⟨rfl, -⟩ | ⟨rfl, -⟩ | ⟨rfl, -⟩ <;>
        simp [ZLib, Deflate, LZO1X, LZ4, LZW_LSB8]
    · intro d2 hag
      obtain ⟨hz2, hw2⟩ := zlibAccepts_congr d d2 data hag.1
      rw [tryZLib_accept d2 data (hz2.trans hz), hw2]
  | false =>
    rw [tryZLib_reject d data hz] at h
    cases hf : deflateAccepts d data with
    | true =>
      rw [tryDeflate_accept d data _ hf] at h
      simp only [Outcome.ret.injEq] at h
      obtain ⟨hk, hout, -⟩ := h
      subst hk hout
      refine ⟨by rw [accepts_Deflate]; exact hf, ?_, ?_⟩
      · intro j hj
        rcases accepts_true_cases d data j hj with
          ⟨rfl, h0⟩ | ⟨rfl, -⟩ | ⟨rfl, -⟩ | ⟨rfl, -⟩ | ⟨rfl, -⟩
        · rw [hz] at h0; cases h0
        all_goals simp [Deflate, LZO1X, LZ4, LZW_LSB8]
      · intro d2 hag
        obtain ⟨hz2, hw2⟩ := zlibAccepts_congr d d2 data hag.1
        have hf2 := deflateAccepts_congr d d2 data (hag.2.1 (le_refl _))
        rw [tryZLib_reject d2 data (hz2.trans hz), tryDeflate_accept d2 data _ (hf2.trans hf),
          hw2, hag.2.1 (le_refl _)]
    | false =>
      rw [tryDeflate_reject d data _ hf] at h
      cases ho : lzoAccepts d data with
      | true =>
        rw [tryLZO1X_accept d data ho] at h
        simp only [Outcome.ret.injEq] at h
        obtain ⟨hk, hout, -⟩ := h
        subst hk hout
        refine ⟨by rw [accepts_LZO1X]; exact ho, ?_, ?_⟩
        · intro j hj
          rcases accepts_true_cases d data j hj with
            ⟨rfl, h0⟩ | ⟨rfl, h1⟩ | ⟨rfl, -⟩ | ⟨rfl, -⟩ | ⟨rfl, -⟩
          · rw [hz] at h0; cases h0
          · rw [hf] at h1; cases h1
          all_goals simp [LZO1X, LZ4, LZW_LSB8]
        · intro d2 hag
          obtain ⟨hz2, -⟩ := zlibAccepts_congr d d2 data hag.1
          have hf2 := deflateAccepts_congr d d2 data (hag.2.1 (by simp [Deflate, LZO1X]))
          have ho2 := lzoAccepts_congr d d2 data (hag.2.2.1 (le_refl _))
          rw [tryZLib_reject d2 data (hz2.trans hz), tryDeflate_reject d2 data _ (hf2.trans hf),
            tryLZO1X_accept d2 data (ho2.trans ho), hag.2.2.1 (le_refl _)]
      | false =>
        rw [tryLZO1X_reject d data ho] at h
        cases h4 : lz4Accepts d data with
        | true =>
          rw [tryLZ4_accept d data h4] at h
          split_ifs at h with hn
          simp only [Outcome.ret.injEq] at h
          obtain ⟨hk, hout, -⟩ := h
          subst hk hout
          refine ⟨by rw [accepts_LZ4]; exact h4, ?_, ?_⟩
          · intro j hj
            rcases accepts_true_cases d data j hj with
              ⟨rfl, h0⟩ | ⟨rfl, h1⟩ | ⟨rfl, h2⟩ | ⟨rfl, -⟩ | ⟨rfl, -⟩
            · rw [hz] at h0; cases h0
            · rw [hf] at h1; cases h1
            · rw [ho] at h2; cases h2
            all_goals simp [LZ4, LZW_LSB8]
          · intro d2 hag
            obtain ⟨hz2, -⟩ := zlibAccepts_congr d d2 data hag.1
            have hf2 := deflateAccepts_congr d d2 data (hag.2.1 (by simp [Deflate, LZ4]))
            have ho2 := lzoAccepts_congr d d2 data (hag.2.2.1 (by simp [LZO1X, LZ4]))
            have h42 := lz4Accepts_congr d d2 data (hag.2.2.2.1 (le_refl _))
            rw [tryZLib_reject d2 data (hz2.trans hz), tryDeflate_reject d2 data _ (hf2.trans hf),
              tryLZO1X_reject d2 data (ho2.trans ho), tryLZ4_accept d2 data (h42.trans h4),
              ← hag.2.2.2.1 (le_refl _), if_pos hn]
        | false =>
          rw [tryLZ4_reject d data h4] at h
          cases hw : lzwAccepts d data with
          | true =>
            rw [tryLZW_accept d data hw] at h
            split_ifs at h with hn
            simp only [Outcome.ret.injEq] at h
            obtain ⟨hk, hout, -⟩ := h
            subst hk hout
            refine ⟨by rw [accepts_LZW_LSB8]; exact hw, ?_, ?_⟩
            · intro j hj
              rcases accepts_true_cases d data j hj with
                ⟨rfl, h0⟩ | ⟨rfl, h1⟩ | ⟨rfl, h2⟩ | ⟨rfl, h3⟩ | ⟨rfl, -⟩
              · rw [hz] at h0; cases h0
              · rw [hf] at h1; cases h1
              · rw [ho] at h2; cases h2
              · rw [h4] at h3; cases h3
              · exact le_refl _
            · intro d2 hag
              obtain ⟨hz2, -⟩ := zlibAccepts_congr d d2 data hag.1
              have hf2 := deflateAccepts_congr d d2 data (hag.2.1 (by simp [Deflate, LZW_LSB8]))
              have ho2 := lzoAccepts_congr d d2 data (hag.2.2.1 (by simp [LZO1X, LZW_LSB8]))
              have h42 := lz4Accepts_congr d d2 data (hag.2.2.2.1 (by simp [LZ4, LZW_LSB8]))
              have hw2 := lzwAccepts_congr d d2 data (hag.2.2.2.2 (le_refl _))
              rw [tryZLib_reject d2 data (hz2.trans hz),
                tryDeflate_reject d2 data _ (hf2.trans hf),
                tryLZO1X_reject d2 data (ho2.trans ho), tryLZ4_reject d2 data (h42.trans h4),
                tryLZW_accept d2 data (hw2.trans hw), ← hag.2.2.2.2 (le_refl _), if_pos hn]
          | false =>
            rw [tryLZW_reject d data hw] at h
            simp at h

theorem accepts_false_of_all (d : Decoders) (data : List UInt8)
    (hz : zlibAccepts d data = false) (hf : deflateAccepts d data = false)
    (ho : lzoAccepts d data = false) (h4 : lz4Accepts d data = false)
    (hw : lzwAccepts d data = false) (j : CompressionKind) : accepts d data j = false := by
  cases hj : accepts d data j with
  | false => rfl
  | true =>
    rcases accepts_true_cases d data j hj with
      ⟨-, h⟩ | ⟨-, h⟩ | ⟨-, h⟩ | ⟨-, h⟩ | ⟨-, h⟩
    · rw [hz] at h; cases h
    · rw [hf] at h; cases h
    · rw [ho] at h; cases h
    · rw [h4] at h; cases h
    · rw [hw] at h; cases h

/-- When every decoder rejects, the attempts end in the final error. -/
theorem tryZLib_all_reject (d : Decoders) (data : List UInt8)
    (h : ∀ k : CompressionKind, accepts d data k = false) :
    tryZLib d data = Outcome.ret 0 none (some errNoCompression) := by
  have hz := h ZLib
  have hf := h Deflate
  have ho := h LZO1X
  have h4 := h LZ4
  have hw := h LZW_LSB8
  rw [accepts_ZLib] at hz
  rw [accepts_Deflate] at hf
  rw [accepts_LZO1X] at ho
  rw [accepts_LZ4] at h4
  rw [accepts_LZW_LSB8] at hw
  rw [tryZLib_reject d data hz, tryDeflate_reject d data _ hf, tryLZO1X_reject d data ho,
    tryLZ4_reject d data h4, tryLZW_reject d data hw]

/-- An error leaves the attempts only as the final error, after every decoder rejected. -/
theorem tryZLib_error_inv (d : Decoders) (data : List UInt8) (k : CompressionKind)
    (bytes : Option (List UInt8)) (e : GoError)
    (h : tryZLib d data = Outcome.ret k bytes (some e)) :
    k = 0 ∧ bytes = none ∧ e = errNoCompression
    ∧ ∀ j : CompressionKind, accepts d data j = false := by
  cases hz : zlibAccepts d data with
  | true => rw [tryZLib_accept d data hz] at h; simp at h
  | false =>
    rw [tryZLib_reject d data hz] at h
    cases hf : deflateAccepts d data with
    | true => rw [tryDeflate_accept d data _ hf] at h; simp at h
    | false =>
      rw [tryDeflate_reject d data _ hf] at h
      cases ho : lzoAccepts d data with
      | true => rw [tryLZO1X_accept d data ho] at h; simp at h
      | false =>
        rw [tryLZO1X_reject d data ho] at h
        cases h4 : lz4Accepts d data with
        | true =>
          rw [tryLZ4_accept d data h4] at h
          split_ifs at h
          simp at h
        | false =>
          rw [tryLZ4_reject d data h4] at h
          cases hw : lzwAccepts d data with
          | true =>
            rw [tryLZW_accept d data hw] at h
            split_ifs at h
            simp at h
          | false =>
            rw [tryLZW_reject d data hw] at h
            simp only [Outcome.ret.injEq, Option.some.injEq] at h
            exact ⟨h.1.symm, h.2.1.symm, h.2.2.symm,
              accepts_false_of_all d data hz hf ho h4 hw⟩

/-- When some decoder accepts and the counts stay within the scratch buffers, the attempts
end in a successful return. -/
theorem tryZLib_success_of_accept (d : Decoders) (data : List UInt8) (j : CompressionKind)
    (hacc : accepts d data j = true) (hb : countsInBounds d data) :
    ∃ (k : CompressionKind) (bytes : List UInt8),
      tryZLib d data = Outcome.ret k (some bytes) none := by
  cases hz : zlibAccepts d data with
  | true => exact ⟨_, _, tryZLib_accept d data hz⟩
  | false =>
    rw [tryZLib_reject d data hz]
    cases hf : deflateAccepts d data with
    | true => exact ⟨_, _, tryDeflate_accept d data _ hf⟩
    | false =>
      rw [tryDeflate_reject d data _ hf]
      cases ho : lzoAccepts d data with
      | true => exact ⟨_, _, tryLZO1X_accept d data ho⟩
      | false =>
        rw [tryLZO1X_reject d data ho]
        cases h4 : lz4Accepts d data with
        | true =>
          rw [tryLZ4_accept d data h4, if_pos hb.1]
          exact ⟨_, _, rfl⟩
        | false =>
          rw [tryLZ4_reject d data h4]
          cases hw : lzwAccepts d data with
          | true =>
            rw [tryLZW_accept d data hw, if_pos hb.2]
            exact ⟨_, _, rfl⟩
          | false =>
            rw [accepts_false_of_all d data hz hf ho h4 hw j] at hacc
            cases hacc

theorem read_ok_of_ret_nil (d : Decoders) (r : Reader) (k : CompressionKind)
    (out : Option (List UInt8)) (h : TryExtract d r = Outcome.ret k out none) :
    (ioReadAll r).2 = none := by
  cases hr : (ioReadAll r).2 with
  | none => rfl
  | some e =>
    rw [TryExtract_of_read_err d r e hr] at h
    simp at h

theorem scratchLen_eq : scratchLen = 1048576 := by
  decide

/-- The LZW attempt returns kind LZW_LSB8 without error, or kind 0 with the final error. -/
theorem tryLZW_kind (d : Decoders) (data : List UInt8) (k : CompressionKind)
    (bytes : Option (List UInt8)) (err : Option GoError)
    (h : tryLZW d data = Outcome.ret k bytes err) :
    (k = LZW_LSB8 ∧ err = none) ∨ (k = 0 ∧ err = some errNoCompression) := by
  cases hw : lzwAccepts d data with
  | true =>
    rw [tryLZW_accept d data hw] at h
    split_ifs at h
    simp only [Outcome.ret.injEq] at h
    exact Or.inl ⟨h.1.symm, h.2.2.symm⟩
  | false =>
    rw [tryLZW_reject d data hw] at h
    simp only [Outcome.ret.injEq] at h
    exact Or.inr ⟨h.1.symm, h.2.2.symm⟩

/-- The bytes returned with kind Deflate are the contents of the shared buffer: what the
zlib attempt wrote, followed by the raw deflate output. -/
theorem tryZLib_deflate_bytes (d : Decoders) (data : List UInt8)
    (bytes : Option (List UInt8)) (h : tryZLib d data = Outcome.ret Deflate bytes none) :
    bytes = some (zlibWritten d data ++ (d.flateNewReader data).drained) := by
  obtain ⟨hacc, hmin, -⟩ := tryZLib_first_accepting d data Deflate bytes h
  rw [accepts_Deflate] at hacc
  have hz : zlibAccepts d data = false := by
    cases hz : zlibAccepts d data with
    | false => rfl
    | true =>
      have := hmin ZLib (by rw [accepts_ZLib]; exact hz)
      simp [ZLib, Deflate] at this
  rw [tryZLib_reject d data hz, tryDeflate_accept d data _ hacc] at h
  simp only [Outcome.ret.injEq] at h
  exact h.2.1.symm

theorem lz4LargePayload_length : lz4LargePayload.length = scratchLen + 1 := by
  unfold lz4LargePayload
  exact List.length_replicate _ _

theorem lz4LargeSuite_contract (data : List UInt8) :
    lz4ShortBufferContract lz4LargeSuite data (scratchLen + 1) := by
  intro n dst hn
  have hlen : ¬ lz4LargePayload.length ≤ n := by
    rw [lz4LargePayload_length]
    omega
  simp only [lz4LargeSuite, fixedDecoders, lz4Fixed, dif_neg hlen]
  simp

/-- With room for the payload the block decoder of `lz4LargeSuite` delivers it. -/
theorem lz4LargeSuite_decodes (data : List UInt8) :
    (lz4LargeSuite.lz4UncompressBlock data (scratchLen + 1) (makeBytes (scratchLen + 1))).2
        = (((scratchLen + 1 : Nat) : Int), none)
    ∧ (lz4LargeSuite.lz4UncompressBlock data (scratchLen + 1)
        (makeBytes (scratchLen + 1))).1.val.take (scratchLen + 1) = lz4LargePayload := by
  have hlen : lz4LargePayload.length ≤ scratchLen + 1 := by
    rw [lz4LargePayload_length]
  simp only [lz4LargeSuite, fixedDecoders, lz4Fixed, dif_pos hlen, Buf.write]
  refine ⟨by rw [lz4LargePayload_length], ?_⟩
  rw [List.take_append_of_le_length (by rw [lz4LargePayload_length])]
  exact List.take_of_length_le (by rw [lz4LargePayload_length])

/-- On `lz4LargeSuite` every attempt fails, the LZ4 one for lack of room. -/
theorem lz4LargeSuite_result (data : List UInt8) :
    TryExtract lz4LargeSuite (bytesReader data)
      = Outcome.ret 0 none (some errNoCompression) := by
  have hr : (ioReadAll (bytesReader data)).2 = none := by
    rw [ioReadAll_bytesReader]
  have h4 : lz4Accepts lz4LargeSuite (ioReadAll (bytesReader data)).1 = false := by
    unfold lz4Accepts
    cases he : (lz4LargeSuite.lz4UncompressBlock (ioReadAll (bytesReader data)).1 scratchLen
        (makeBytes scratchLen)).2.2 with
    | none =>
      exact absurd he (lz4LargeSuite_contract _ scratchLen (makeBytes scratchLen)
        (Nat.lt_succ_self _))
    | some e => rfl
  rw [TryExtract_of_read_ok _ _ hr, tryZLib_reject _ _ (by rfl), tryDeflate_reject _ _ _ (by rfl),
    tryLZO1X_reject _ _ (by rfl), tryLZ4_reject _ _ h4, tryLZW_reject _ _ (by rfl)]

/-- The LZW attempt returns the first chunk of the stream, whatever follows it. -/
theorem tryLZW_of_first_chunk (d : Decoders) (data c : List UInt8) (rest : List (List UInt8))
    (last : List UInt8) (e : GoError)
    (h : d.lzwNewReader data Order.LSB 8 = Reader.mk (c :: rest) last e)
    (hlen : c.length ≤ scratchLen) :
    tryLZW d data = Outcome.ret LZW_LSB8 (some c) none := by
  have hrd : (d.lzwNewReader data Order.LSB 8).Read = (c, none) := by
    rw [h]
    rfl
  have hw : lzwAccepts d data = true := by
    unfold lzwAccepts
    rw [hrd]
    rfl
  rw [tryLZW_accept d data hw, hrd]
  simp only
  rw [if_pos hlen]

/-! ## The call in its state -/

theorem World.extendedBy_refl (w : World) : w.extendedBy w :=
  ⟨rfl, rfl, [], (List.append_nil _).symm⟩

theorem World.extendedBy_emit (w : World) (e : Event) : w.extendedBy (w.emit e) :=
  ⟨rfl, rfl, [e], rfl⟩

theorem World.extendedBy_trans (w w2 w3 : World) (h1 : w.extendedBy w2) (h2 : w2.extendedBy w3) :
    w.extendedBy w3 := by
  obtain ⟨a1, b1, evs1, c1⟩ := h1
  obtain ⟨a2, b2, evs2, c2⟩ := h2
  exact ⟨a2.trans a1, b2.trans b1, evs1 ++ evs2, by rw [c2, c1, List.append_assoc]⟩

theorem callLZW_spec (d : Decoders) (data : List UInt8) (w : World) :
    (callLZW d data w).1 = tryLZW d data ∧ w.extendedBy (callLZW d data w).2 := by
  rcases hrd : (d.lzwNewReader data Order.LSB 8).Read with ⟨chunk, e⟩
  cases e with
  | none =>
    by_cases hc : chunk.length ≤ scratchLen
    · have h1 : callLZW d data w
          = (Outcome.ret LZW_LSB8 (some ((chunk ++ (makeBytes scratchLen).val.drop
              chunk.length).take chunk.length)) none,
            ((w.emit (Event.printRead chunk.length)).emit
              (Event.printOutput ((chunk ++ (makeBytes scratchLen).val.drop
                chunk.length).take chunk.length))).emit
              (Event.log InfoLevel none "Detected LZW compression")) := by
        simp only [callLZW, hrd, if_pos hc]
      have h2 : tryLZW d data
          = Outcome.ret LZW_LSB8 (some ((chunk ++ (makeBytes scratchLen).val.drop
              chunk.length).take chunk.length)) none := by
        simp only [tryLZW, hrd, if_pos hc]
      rw [h1, h2]
      exact ⟨rfl, World.extendedBy_trans _ _ _ (World.extendedBy_emit _ _)
        (World.extendedBy_trans _ _ _ (World.extendedBy_emit _ _) (World.extendedBy_emit _ _))⟩
    · have h1 : callLZW d data w = (Outcome.panic, w.emit (Event.printRead chunk.length)) := by
        simp only [callLZW, hrd, if_neg hc]
      have h2 : tryLZW d data = Outcome.panic := by
        simp only [tryLZW, hrd, if_neg hc]
      rw [h1, h2]
      exact ⟨rfl, World.extendedBy_emit _ _⟩
  | some err =>
    have h1 : callLZW d data w = (Outcome.ret 0 none (some errNoCompression),
        w.emit (Event.log ErrorLevel (some err) "LZW extraction failed")) := by
      simp only [callLZW, hrd]
    have h2 : tryLZW d data = Outcome.ret 0 none (some errNoCompression) := by
      simp only [tryLZW, hrd]
    rw [h1, h2]
    exact ⟨rfl, World.extendedBy_emit _ _⟩

theorem callLZ4_spec (d : Decoders) (data : List UInt8) (w : World) :
    (callLZ4 d data w).1 = tryLZ4 d data ∧ w.extendedBy (callLZ4 d data w).2 := by
  unfold callLZ4 tryLZ4
  rcases hl : d.lz4UncompressBlock data scratchLen (makeBytes scratchLen) with ⟨buf, n, e⟩
  cases e with
  | none =>
    simp only
    split_ifs
    · exact ⟨rfl, World.extendedBy_emit _ _⟩
    · exact ⟨rfl, World.extendedBy_emit _ _⟩
  | some err =>
    simp only
    exact ⟨(callLZW_spec d data _).1,
      World.extendedBy_trans _ _ _ (World.extendedBy_emit _ _) (callLZW_spec d data _).2⟩

theorem callLZO1X_spec (d : Decoders) (data : List UInt8) (w : World) :
    (callLZO1X d data w).1 = tryLZO1X d data ∧ w.extendedBy (callLZO1X d data w).2 := by
  unfold callLZO1X tryLZO1X
  rcases hl : d.lzoDecompress1X data 0 0 with ⟨out, e⟩
  cases e with
  | none => exact ⟨rfl, World.extendedBy_emit _ _⟩
  | some err =>
    simp only
    exact ⟨(callLZ4_spec d data _).1,
      World.extendedBy_trans _ _ _ (World.extendedBy_emit _ _) (callLZ4_spec d data _).2⟩

theorem callDeflate_spec (d : Decoders) (data b : List UInt8) (w : World) :
    (callDeflate d data b w).1 = tryDeflate d data b ∧ w.extendedBy (callDeflate d data b w).2 := by
  unfold callDeflate tryDeflate
  rcases hc : ioCopy b (d.flateNewReader data) with ⟨b1, e⟩
  cases e with
  | none => exact ⟨rfl, World.extendedBy_refl _⟩
  | some err =>
    simp only
    exact ⟨(callLZO1X_spec d data _).1,
      World.extendedBy_trans _ _ _ (World.extendedBy_emit _ _) (callLZO1X_spec d data _).2⟩

theorem callZLib_spec (d : Decoders) (data : List UInt8) (w : World) :
    (callZLib d data w).1 = tryZLib d data ∧ w.extendedBy (callZLib d data w).2 := by
  unfold callZLib tryZLib
  cases hz : d.zlibNewReader data with
  | error err =>
    simp only
    exact ⟨(callDeflate_spec d data _ _).1,
      World.extendedBy_trans _ _ _ (World.extendedBy_emit _ _) (callDeflate_spec d data _ _).2⟩
  | ok rd =>
    simp only
    rcases hc : ioCopy [] rd with ⟨b, e⟩
    cases e with
    | none => exact ⟨rfl, World.extendedBy_refl _⟩
    | some err =>
      simp only
      exact ⟨(callDeflate_spec d data _ _).1,
        World.extendedBy_trans _ _ _ (World.extendedBy_emit _ _) (callDeflate_spec d data _ _).2⟩

/-- The results of a call do not depend on the state it starts in, and the call leaves the
logger state as it was. -/
theorem TryExtractCall_spec (d : Decoders) (w : World) (r : Reader) :
    (TryExtractCall d w r).1 = TryExtract d r ∧ w.extendedBy (TryExtractCall d w r).2 := by
  unfold TryExtractCall TryExtract
  rcases hr : ioReadAll r with ⟨data, e⟩
  cases e with
  | none => exact callZLib_spec d data w
  | some err => exact ⟨rfl, World.extendedBy_refl _⟩

/-! ## The claims -/

/-- C1: a kind returned without error belongs to a decoder that accepted the input, every
decoder of an earlier kind rejected it (so of two accepting decoders the earlier one is
reported), and the result stays the same under any change of the decoders after that
kind. -/
theorem TryExtract_priority_order (d : Decoders) (r : Reader) (k : CompressionKind)
    (out : Option (List UInt8)) (h : TryExtract d r = Outcome.ret k out none) :
    accepts d (ioReadAll r).1 k = true
    ∧ (∀ j : CompressionKind, j < k → accepts d (ioReadAll r).1 j = false)
    ∧ (∀ j : CompressionKind, accepts d (ioReadAll r).1 j = true → k ≤ j)
    ∧ (∀ d2 : Decoders, agreeUpTo k d d2 (ioReadAll r).1 →
        TryExtract d2 r = Outcome.ret k out none) := by
  have hr := read_ok_of_ret_nil d r k out h
  rw [TryExtract_of_read_ok d r hr] at h
  obtain ⟨h1, h2, h3⟩ := tryZLib_first_accepting d (ioReadAll r).1 k out h
  refine ⟨h1, ?_, h2, ?_⟩
  · intro j hj
    cases hacc : accepts d (ioReadAll r).1 j with
    | false => rfl
    | true => exact absurd (h2 j hacc) (not_le.mpr hj)
  · intro d2 hag
    rw [TryExtract_of_read_ok d2 r hr]
    exact h3 d2 hag

/-- Witness of C1: raw deflate and LZO1x both accept, Deflate is reported. -/
theorem TryExtract_priority_order_witness :
    TryExtract foxSuiteLzoToo (bytesReader foxInput) = Outcome.ret Deflate (some foxText) none
    ∧ accepts foxSuiteLzoToo (ioReadAll (bytesReader foxInput)).1 LZO1X = true
    ∧ (accepts foxSuiteLzoToo (ioReadAll (bytesReader foxInput)).1 Deflate = true
      ∧ (∀ j : CompressionKind, j < Deflate →
          accepts foxSuiteLzoToo (ioReadAll (bytesReader foxInput)).1 j = false)
      ∧ (∀ j : CompressionKind,
          accepts foxSuiteLzoToo (ioReadAll (bytesReader foxInput)).1 j = true → Deflate ≤ j)
      ∧ (∀ d2 : Decoders, agreeUpTo Deflate foxSuiteLzoToo d2 (ioReadAll (bytesReader foxInput)).1 →
          TryExtract d2 (bytesReader foxInput) = Outcome.ret Deflate (some foxText) none)) :=
  ⟨by decide, by decide,
    TryExtract_priority_order foxSuiteLzoToo (bytesReader foxInput) Deflate (some foxText)
      (by decide)⟩

/-- C2: after a successful read, the error "no compression recognized" is returned exactly
when all five decoders reject; any error returned then is that one constant; and when some
decoder accepts (its count within the scratch buffer) the call returns one kind, some bytes
and a nil error. -/
theorem TryExtract_no_compression_iff (d : Decoders) (r : Reader)
    (hread : (ioReadAll r).2 = none) :
    (TryExtract d r = Outcome.ret 0 none (some errNoCompression)
      ↔ ∀ k : CompressionKind, accepts d (ioReadAll r).1 k = false)
    ∧ (∀ (k : CompressionKind) (bytes : Option (List UInt8)) (e : GoError),
        TryExtract d r = Outcome.ret k bytes (some e) → e = errNoCompression)
    ∧ ((∃ j : CompressionKind, accepts d (ioReadAll r).1 j = true) →
        countsInBounds d (ioReadAll r).1 →
        ∃ (k : CompressionKind) (bytes : List UInt8),
          TryExtract d r = Outcome.ret k (some bytes) none
          ∧ accepts d (ioReadAll r).1 k = true) := by
  rw [TryExtract_of_read_ok d r hread]
  refine ⟨⟨?_, ?_⟩, ?_, ?_⟩
  · intro h
    exact (tryZLib_error_inv d _ _ _ _ h).2.2.2
  · intro h
    exact tryZLib_all_reject d _ h
  · intro k bytes e h
    exact (tryZLib_error_inv d _ _ _ _ h).2.2.1
  · rintro ⟨j, hj⟩ hb
    obtain ⟨k, bytes, hk⟩ := tryZLib_success_of_accept d _ j hj hb
    exact ⟨k, bytes, hk, (tryZLib_first_accepting d _ k _ hk).1⟩

/-- Witness of C2: on a suite that rejects everything the read succeeds and the final error
is returned. -/
theorem TryExtract_no_compression_iff_witness :
    (ioReadAll (bytesReader foxText)).2 = none
    ∧ TryExtract rejectingSuite (bytesReader foxText) = Outcome.ret 0 none (some errNoCompression)
    ∧ (∀ k : CompressionKind,
        accepts rejectingSuite (ioReadAll (bytesReader foxText)).1 k = false) :=
  ⟨by decide, by decide,
    (TryExtract_no_compression_iff rejectingSuite (bytesReader foxText) (by decide)).1.mp
      (by decide)⟩

/-- C8: when reading the input fails, the result is kind 0, nil bytes and the read error
itself, whatever the decoders are; and an error other than "no compression recognized" is
returned only in that way. -/
theorem TryExtract_read_failure (d : Decoders) (r : Reader) (e : GoError)
    (h : (ioReadAll r).2 = some e) :
    TryExtract d r = Outcome.ret 0 none (some e)
    ∧ e = r.err
    ∧ (∀ d2 : Decoders, TryExtract d2 r = Outcome.ret 0 none (some e))
    ∧ (∀ (d2 : Decoders) (r2 : Reader) (k : CompressionKind) (bytes : Option (List UInt8))
        (e2 : GoError), TryExtract d2 r2 = Outcome.ret k bytes (some e2) →
        e2 ≠ errNoCompression → (ioReadAll r2).2 = some e2) := by
  refine ⟨TryExtract_of_read_err d r e h, ?_, fun d2 => TryExtract_of_read_err d2 r e h, ?_⟩
  · unfold ioReadAll at h
    simp only at h
    split_ifs at h
    exact (Option.some.inj h).symm
  · intro d2 r2 k bytes e2 h2 hne
    cases hr : (ioReadAll r2).2 with
    | none =>
      rw [TryExtract_of_read_ok d2 r2 hr] at h2
      exact absurd (tryZLib_error_inv d2 _ _ _ _ h2).2.2.1 hne
    | some e3 =>
      rw [TryExtract_of_read_err d2 r2 e3 hr] at h2
      simp only [Outcome.ret.injEq, Option.some.injEq] at h2
      rw [h2.2.2]

/-- Witness of C8: a reader that fails after two bytes. -/
theorem TryExtract_read_failure_witness :
    (ioReadAll brokenReader).2 = some (GoError.lib "read: connection reset")
    ∧ TryExtract foxSuite brokenReader
        = Outcome.ret 0 none (some (GoError.lib "read: connection reset")) :=
  ⟨by decide,
    (TryExtract_read_failure foxSuite brokenReader (GoError.lib "read: connection reset")
      (by decide)).1⟩

/-- C9: two calls of TryExtract whose inputs deliver the same bytes return the same kind,
bytes and error, whatever state each call starts in: also when the second call runs in the
state the first one left, and also after `InitLogging`.  A call leaves the logger state
unchanged and only adds effects. -/
theorem TryExtract_deterministic (d : Decoders) (w1 w2 : World) (r1 r2 : Reader)
    (h : ioReadAll r1 = ioReadAll r2) :
    (TryExtractCall d w1 r1).1 = (TryExtractCall d w2 r2).1
    ∧ (TryExtractCall d (TryExtractCall d w1 r1).2 r2).1 = (TryExtractCall d w1 r1).1
    ∧ (TryExtractCall d (InitLogging w1) r2).1 = (TryExtractCall d w1 r1).1
    ∧ (TryExtractCall d w1 r1).2.globalLevel = w1.globalLevel
    ∧ (TryExtractCall d w1 r1).2.consoleLogger = w1.consoleLogger
    ∧ ∃ evs : List Event, (TryExtractCall d w1 r1).2.events = w1.events ++ evs := by
  have hpure : TryExtract d r1 = TryExtract d r2 := by
    unfold TryExtract
    rw [h]
  obtain ⟨hres, hlevel, hlogger, hevs⟩ := TryExtractCall_spec d w1 r1
  refine ⟨?_, ?_, ?_, hlevel, hlogger, hevs⟩
  · rw [hres, (TryExtractCall_spec d w2 r2).1, hpure]
  · rw [hres, (TryExtractCall_spec d _ r2).1, hpure]
  · rw [hres, (TryExtractCall_spec d _ r2).1, hpure]

/-- Witness of C9: the empty input, delivered by two different readers; the first call and a
second call in the state left by the first both return LZ4 with no bytes and a nil error. -/
theorem TryExtract_deterministic_witness :
    ioReadAll (Reader.mk [] [] GoError.eof) = ioReadAll (bytesReader [])
    ∧ (TryExtractCall emptyInputSuite freshWorld (Reader.mk [] [] GoError.eof)).1
        = Outcome.ret LZ4 (some []) none
    ∧ (TryExtractCall emptyInputSuite
        (TryExtractCall emptyInputSuite freshWorld (Reader.mk [] [] GoError.eof)).2
        (bytesReader [])).1 = Outcome.ret LZ4 (some []) none :=
  ⟨by decide, by decide,
    ((TryExtract_deterministic emptyInputSuite freshWorld freshWorld
      (Reader.mk [] [] GoError.eof) (bytesReader []) (by decide)).2.1).trans (by decide)⟩

/-- C10: every return with a non-nil error has nil bytes and kind 0, the value of the
constant ZLib. -/
theorem TryExtract_error_returns_zero (d : Decoders) (r : Reader) (k : CompressionKind)
    (bytes : Option (List UInt8)) (e : GoError)
    (h : TryExtract d r = Outcome.ret k bytes (some e)) :
    bytes = none ∧ k = 0 ∧ k = ZLib := by
  cases hr : (ioReadAll r).2 with
  | none =>
    rw [TryExtract_of_read_ok d r hr] at h
    obtain ⟨hk, hb, -, -⟩ := tryZLib_error_inv d _ _ _ _ h
    exact ⟨hb, hk, hk⟩
  | some e3 =>
    rw [TryExtract_of_read_err d r e3 hr] at h
    simp only [Outcome.ret.injEq] at h
    exact ⟨h.2.1.symm, h.1.symm, h.1.symm⟩

/-- Witness of C10: the final error comes with kind 0 and nil bytes. -/
theorem TryExtract_error_returns_zero_witness :
    TryExtract rejectingSuite (bytesReader foxText)
        = Outcome.ret 0 none (some errNoCompression)
    ∧ ((none : Option (List UInt8)) = none ∧ (0 : CompressionKind) = 0
      ∧ (0 : CompressionKind) = ZLib) :=
  ⟨by decide,
    TryExtract_error_returns_zero rejectingSuite (bytesReader foxText) 0 none errNoCompression
      (by decide)⟩

/-- C6: when the LZ4 attempt is reached it runs on a scratch buffer of 1024*1024 bytes; if
the decompressed size exceeds 1,048,576 (the block decoder then reports the short
destination) the attempt is a non-match, detection goes on with LZW and LZ4 is not
reported; and bytes returned with kind LZ4 are the first n bytes of the scratch buffer, n
the count of the block decoder, at most 1,048,576 of them. -/
theorem TryExtract_lz4_scratch (d : Decoders) (r : Reader)
    (hread : (ioReadAll r).2 = none)
    (hz : zlibAccepts d (ioReadAll r).1 = false)
    (hf : deflateAccepts d (ioReadAll r).1 = false)
    (ho : lzoAccepts d (ioReadAll r).1 = false) :
    TryExtract d r = tryLZ4 d (ioReadAll r).1
    ∧ (makeBytes scratchLen).val.length = 1024 * 1024
    ∧ (∀ trueSize : Nat, 1048576 < trueSize →
        lz4ShortBufferContract d (ioReadAll r).1 trueSize →
        lz4Accepts d (ioReadAll r).1 = false
        ∧ TryExtract d r = tryLZW d (ioReadAll r).1
        ∧ ∀ (bytes : Option (List UInt8)) (err : Option GoError),
            TryExtract d r ≠ Outcome.ret LZ4 bytes err)
    ∧ (∀ (bytes : Option (List UInt8)) (err : Option GoError),
        TryExtract d r = Outcome.ret LZ4 bytes err →
        err = none
        ∧ bytes = some
            ((d.lz4UncompressBlock (ioReadAll r).1 scratchLen (makeBytes scratchLen)).1.val.take
              (d.lz4UncompressBlock (ioReadAll r).1 scratchLen (makeBytes scratchLen)).2.1.toNat)
        ∧ ∃ l : List UInt8, bytes = some l ∧ l.length ≤ 1048576
          ∧ (l.length : Int)
            = (d.lz4UncompressBlock (ioReadAll r).1 scratchLen (makeBytes scratchLen)).2.1) := by
  have hstep : TryExtract d r = tryLZ4 d (ioReadAll r).1 := by
    rw [TryExtract_of_read_ok d r hread, tryZLib_reject d _ hz, tryDeflate_reject d _ _ hf,
      tryLZO1X_reject d _ ho]
  refine ⟨hstep, ?_, ?_, ?_⟩
  · rw [(makeBytes scratchLen).property]
    rfl
  · intro trueSize hbig hcontract
    have hlt : scratchLen < trueSize := by
      rw [scratchLen_eq]
      exact hbig
    have herr := hcontract scratchLen (makeBytes scratchLen) hlt
    have h4 : lz4Accepts d (ioReadAll r).1 = false := by
      unfold lz4Accepts
      cases he : (d.lz4UncompressBlock (ioReadAll r).1 scratchLen (makeBytes scratchLen)).2.2 with
      | none => exact absurd he herr
      | some e => rfl
    have hgo : TryExtract d r = tryLZW d (ioReadAll r).1 := by
      rw [hstep, tryLZ4_reject d _ h4]
    refine ⟨h4, hgo, ?_⟩
    intro bytes err hret
    rw [hgo] at hret
    rcases tryLZW_kind d _ _ _ _ hret with ⟨hk, -⟩ | ⟨hk, -⟩
    · simp [LZ4, LZW_LSB8] at hk
    · simp [LZ4] at hk
  · intro bytes err hret
    rw [hstep] at hret
    cases h4 : lz4Accepts d (ioReadAll r).1 with
    | false =>
      rw [tryLZ4_reject d _ h4] at hret
      rcases tryLZW_kind d _ _ _ _ hret with ⟨hk, -⟩ | ⟨hk, -⟩
      · simp [LZ4, LZW_LSB8] at hk
      · simp [LZ4] at hk
    | true =>
      rw [tryLZ4_accept d _ h4] at hret
      split_ifs at hret with hn
      simp only [Outcome.ret.injEq] at hret
      obtain ⟨-, hb, he⟩ := hret
      refine ⟨he.symm, hb.symm, _, hb.symm, ?_, ?_⟩
      · rw [List.length_take]
        have h2 := hn.2
        have hs := scratchLen_eq
        omega
      · rw [List.length_take,
          (d.lz4UncompressBlock (ioReadAll r).1 scratchLen (makeBytes scratchLen)).1.property]
        have h1 := hn.1
        have h2 := hn.2
        have h3 : (d.lz4UncompressBlock (ioReadAll r).1 scratchLen
            (makeBytes scratchLen)).2.1.toNat ≤ scratchLen := by omega
        rw [min_eq_left h3]
        omega

/-- Witness of C6: a payload one byte longer than the scratch buffer; the LZ4 attempt is a
non-match and detection goes on with the LZW attempt. -/
theorem TryExtract_lz4_scratch_witness :
    (ioReadAll (bytesReader lz4LargeInput)).2 = none
    ∧ zlibAccepts lz4LargeSuite (ioReadAll (bytesReader lz4LargeInput)).1 = false
    ∧ deflateAccepts lz4LargeSuite (ioReadAll (bytesReader lz4LargeInput)).1 = false
    ∧ lzoAccepts lz4LargeSuite (ioReadAll (bytesReader lz4LargeInput)).1 = false
    ∧ lz4ShortBufferContract lz4LargeSuite (ioReadAll (bytesReader lz4LargeInput)).1
        (scratchLen + 1)
    ∧ TryExtract lz4LargeSuite (bytesReader lz4LargeInput)
        = tryLZW lz4LargeSuite (ioReadAll (bytesReader lz4LargeInput)).1 :=
  ⟨by rw [ioReadAll_bytesReader], rfl, rfl, rfl, lz4LargeSuite_contract _,
    ((TryExtract_lz4_scratch lz4LargeSuite (bytesReader lz4LargeInput)
      (by rw [ioReadAll_bytesReader]) rfl rfl rfl).2.2.1 (scratchLen + 1) (by decide)
      (lz4LargeSuite_contract _)).2.1⟩

/-- C7: when the LZW attempt is reached, LZW_LSB8 is reported exactly when the one `Read`
into the scratch buffer of 1,048,576 bytes returns a nil error; the bytes returned are the
bytes that `Read` delivered, at most 1,048,576; whatever the stream holds after that first
chunk (more output or an error) is dropped and does not change the result. -/
theorem TryExtract_lzw_first_read (d : Decoders) (r : Reader)
    (hread : (ioReadAll r).2 = none)
    (hz : zlibAccepts d (ioReadAll r).1 = false)
    (hf : deflateAccepts d (ioReadAll r).1 = false)
    (ho : lzoAccepts d (ioReadAll r).1 = false)
    (h4 : lz4Accepts d (ioReadAll r).1 = false)
    (hcount : (d.lzwNewReader (ioReadAll r).1 Order.LSB 8).Read.1.length ≤ scratchLen) :
    ((∃ (bytes : Option (List UInt8)) (err : Option GoError),
        TryExtract d r = Outcome.ret LZW_LSB8 bytes err)
      ↔ (d.lzwNewReader (ioReadAll r).1 Order.LSB 8).Read.2 = none)
    ∧ ((d.lzwNewReader (ioReadAll r).1 Order.LSB 8).Read.2 = none →
        TryExtract d r
          = Outcome.ret LZW_LSB8 (some (d.lzwNewReader (ioReadAll r).1 Order.LSB 8).Read.1) none
        ∧ (d.lzwNewReader (ioReadAll r).1 Order.LSB 8).Read.1.length ≤ 1048576)
    ∧ ((d.lzwNewReader (ioReadAll r).1 Order.LSB 8).Read.2 ≠ none →
        TryExtract d r = Outcome.ret 0 none (some errNoCompression))
    ∧ (∀ (c : List UInt8) (rest : List (List UInt8)) (last : List UInt8) (e : GoError),
        d.lzwNewReader (ioReadAll r).1 Order.LSB 8 = Reader.mk (c :: rest) last e →
        TryExtract d r = Outcome.ret LZW_LSB8 (some c) none) := by
  have hstep : TryExtract d r = tryLZW d (ioReadAll r).1 := by
    rw [TryExtract_of_read_ok d r hread, tryZLib_reject d _ hz, tryDeflate_reject d _ _ hf,
      tryLZO1X_reject d _ ho, tryLZ4_reject d _ h4]
  have hyes : (d.lzwNewReader (ioReadAll r).1 Order.LSB 8).Read.2 = none →
      TryExtract d r
        = Outcome.ret LZW_LSB8 (some (d.lzwNewReader (ioReadAll r).1 Order.LSB 8).Read.1)
            none := by
    intro hn
    have hw : lzwAccepts d (ioReadAll r).1 = true := by
      unfold lzwAccepts
      rw [hn]
      rfl
    rw [hstep, tryLZW_accept d _ hw, if_pos hcount]
  have hno : (d.lzwNewReader (ioReadAll r).1 Order.LSB 8).Read.2 ≠ none →
      TryExtract d r = Outcome.ret 0 none (some errNoCompression) := by
    intro hn
    have hw : lzwAccepts d (ioReadAll r).1 = false := by
      unfold lzwAccepts
      cases he : (d.lzwNewReader (ioReadAll r).1 Order.LSB 8).Read.2 with
      | none => exact absurd he hn
      | some e => rfl
    rw [hstep, tryLZW_reject d _ hw]
  refine ⟨⟨?_, fun hn => ⟨_, _, hyes hn⟩⟩, ?_, hno, ?_⟩
  · rintro ⟨bytes, err, hret⟩
    by_contra hn
    rw [hno hn] at hret
    simp [LZW_LSB8] at hret
  · intro hn
    refine ⟨hyes hn, ?_⟩
    rw [← scratchLen_eq]
    exact hcount
  · intro c rest last e hrd
    have hn : (d.lzwNewReader (ioReadAll r).1 Order.LSB 8).Read.2 = none := by
      rw [hrd]
      rfl
    rw [hyes hn, hrd]
    rfl

/-- Witness of C7: an LZW stream of two chunks; the first chunk is returned. -/
theorem TryExtract_lzw_first_read_witness :
    (ioReadAll (bytesReader lzwCutInput)).2 = none
    ∧ zlibAccepts lzwTwoChunkSuite (ioReadAll (bytesReader lzwCutInput)).1 = false
    ∧ deflateAccepts lzwTwoChunkSuite (ioReadAll (bytesReader lzwCutInput)).1 = false
    ∧ lzoAccepts lzwTwoChunkSuite (ioReadAll (bytesReader lzwCutInput)).1 = false
    ∧ lz4Accepts lzwTwoChunkSuite (ioReadAll (bytesReader lzwCutInput)).1 = false
    ∧ (lzwTwoChunkSuite.lzwNewReader (ioReadAll (bytesReader lzwCutInput)).1
        Order.LSB 8).Read.1.length ≤ scratchLen
    ∧ (lzwTwoChunkSuite.lzwNewReader (ioReadAll (bytesReader lzwCutInput)).1
        Order.LSB 8).drained = [0x41, 0x42, 0x43]
    ∧ TryExtract lzwTwoChunkSuite (bytesReader lzwCutInput)
        = Outcome.ret LZW_LSB8 (some [0x41, 0x42]) none :=
  ⟨by decide, by decide, by decide, by decide, by decide, by decide, by decide,
    (TryExtract_lzw_first_read lzwTwoChunkSuite (bytesReader lzwCutInput) (by decide)
      (by decide) (by decide) (by decide) (by decide) (by decide)).2.2.2
      [0x41, 0x42] [[0x43]] [] GoError.eof rfl⟩

/-- C4: bytes returned with kind Deflate are the whole shared buffer, that is the output of
the zlib attempt followed by the raw deflate output; on `storedBlocksInput`, where zlib
accepts the header and fails after delivering 9 bytes, the raw deflate output is the single
byte 01 and TryExtract returns ten bytes with kind Deflate. -/
theorem TryExtract_deflate_shared_buffer :
    (∀ (d : Decoders) (r : Reader) (bytes : Option (List UInt8)),
        TryExtract d r = Outcome.ret Deflate bytes none →
        bytes = some (zlibWritten d (ioReadAll r).1
          ++ (d.flateNewReader (ioReadAll r).1).drained))
    ∧ zlibAccepts storedBlocksSuite storedBlocksInput = false
    ∧ ioCopy [] (storedBlocksSuite.flateNewReader storedBlocksInput) = ([0x01], none)
    ∧ TryExtract storedBlocksSuite (bytesReader storedBlocksInput)
        = Outcome.ret Deflate
            (some [0x00, 0x00, 0xFF, 0xFF, 0x01, 0x00, 0x00, 0xFF, 0xFF, 0x01]) none := by
  refine ⟨?_, by decide, by decide, by decide⟩
  intro d r bytes h
  have hr := read_ok_of_ret_nil d r Deflate bytes h
  rw [TryExtract_of_read_ok d r hr] at h
  exact tryZLib_deflate_bytes d _ bytes h

/-- C5: the LZW attempt reports LZW_LSB8 with the first chunk of the stream whatever the
stream does afterwards.  On `lzwCutInput` the stream delivers one byte and then fails, so
that reading it to its end reports an error; TryExtract reports LZW_LSB8 with that one byte
and a nil error. -/
theorem TryExtract_lzw_accepts_cut_stream :
    (∀ (d : Decoders) (r : Reader) (c : List UInt8) (rest : List (List UInt8))
        (last : List UInt8) (e : GoError),
        (ioReadAll r).2 = none →
        zlibAccepts d (ioReadAll r).1 = false → deflateAccepts d (ioReadAll r).1 = false →
        lzoAccepts d (ioReadAll r).1 = false → lz4Accepts d (ioReadAll r).1 = false →
        d.lzwNewReader (ioReadAll r).1 Order.LSB 8 = Reader.mk (c :: rest) last e →
        c.length ≤ scratchLen →
        TryExtract d r = Outcome.ret LZW_LSB8 (some c) none)
    ∧ ioCopy [] (lzwCutSuite.lzwNewReader lzwCutInput Order.LSB 8)
        = ([0x41], some (GoError.lib "unexpected EOF"))
    ∧ TryExtract lzwCutSuite (bytesReader lzwCutInput)
        = Outcome.ret LZW_LSB8 (some [0x41]) none := by
  refine ⟨?_, by decide, by decide⟩
  intro d r c rest last e hread hz hf ho h4 hrd hlen
  rw [TryExtract_of_read_ok d r hread, tryZLib_reject d _ hz, tryDeflate_reject d _ _ hf,
    tryLZO1X_reject d _ ho, tryLZ4_reject d _ h4]
  exact tryLZW_of_first_chunk d _ c rest last e hrd hlen

/-- C3, as stated, fails on `lz4LargeInput`: the LZ4 block decoder, given room, yields
`lz4LargePayload` without error and no earlier decoder accepts, yet TryExtract returns
"no compression recognized". -/
theorem TryExtract_round_trip_lz4_large :
    ((lz4LargeSuite.lz4UncompressBlock lz4LargeInput (scratchLen + 1)
        (makeBytes (scratchLen + 1))).2 = (((scratchLen + 1 : Nat) : Int), none)
      ∧ (lz4LargeSuite.lz4UncompressBlock lz4LargeInput (scratchLen + 1)
          (makeBytes (scratchLen + 1))).1.val.take (scratchLen + 1) = lz4LargePayload)
    ∧ (zlibAccepts lz4LargeSuite lz4LargeInput = false
      ∧ deflateAccepts lz4LargeSuite lz4LargeInput = false
      ∧ lzoAccepts lz4LargeSuite lz4LargeInput = false)
    ∧ TryExtract lz4LargeSuite (bytesReader lz4LargeInput)
        = Outcome.ret 0 none (some errNoCompression)
    ∧ TryExtract lz4LargeSuite (bytesReader lz4LargeInput)
        ≠ Outcome.ret LZ4 (some lz4LargePayload) none := by
  refine ⟨lz4LargeSuite_decodes _, ⟨rfl, rfl, rfl⟩, lz4LargeSuite_result _, ?_⟩
  rw [lz4LargeSuite_result]
  simp

/-- C3, amended: after a successful read, a payload `p` comes back with its kind when no
earlier decoder accepts and: zlib reads to the end of its stream yielding `p`; or raw
deflate does, the shared buffer being empty after the zlib attempt; or LZO1x returns `p`; or
the LZ4 block decoder accepts on the scratch buffer with a count in range and `p` at its
start; or the first `Read` of the LZW stream delivers `p`, no longer than the scratch
buffer, with a nil error. -/
theorem TryExtract_round_trip (d : Decoders) (r : Reader) (p : List UInt8)
    (hread : (ioReadAll r).2 = none) :
    ((∃ rd : Reader, d.zlibNewReader (ioReadAll r).1 = Except.ok rd ∧ ioCopy [] rd = (p, none)) →
        TryExtract d r = Outcome.ret ZLib (some p) none)
    ∧ (zlibAccepts d (ioReadAll r).1 = false → zlibWritten d (ioReadAll r).1 = [] →
        ioCopy [] (d.flateNewReader (ioReadAll r).1) = (p, none) →
        TryExtract d r = Outcome.ret Deflate (some p) none)
    ∧ (zlibAccepts d (ioReadAll r).1 = false → deflateAccepts d (ioReadAll r).1 = false →
        d.lzoDecompress1X (ioReadAll r).1 0 0 = (p, none) →
        TryExtract d r = Outcome.ret LZO1X (some p) none)
    ∧ (zlibAccepts d (ioReadAll r).1 = false → deflateAccepts d (ioReadAll r).1 = false →
        lzoAccepts d (ioReadAll r).1 = false →
        ∀ (buf : Buf scratchLen) (n : Int),
          d.lz4UncompressBlock (ioReadAll r).1 scratchLen (makeBytes scratchLen)
            = (buf, n, none) →
          0 ≤ n → n ≤ (scratchLen : Int) → buf.val.take n.toNat = p →
          TryExtract d r = Outcome.ret LZ4 (some p) none)
    ∧ (zlibAccepts d (ioReadAll r).1 = false → deflateAccepts d (ioReadAll r).1 = false →
        lzoAccepts d (ioReadAll r).1 = false → lz4Accepts d (ioReadAll r).1 = false →
        (d.lzwNewReader (ioReadAll r).1 Order.LSB 8).Read = (p, none) →
        p.length ≤ scratchLen →
        TryExtract d r = Outcome.ret LZW_LSB8 (some p) none) := by
  rw [TryExtract_of_read_ok d r hread]
  refine ⟨?_, ?_, ?_, ?_, ?_⟩
  · rintro ⟨rd, hrd, hcopy⟩
    have hcopy1 : rd.drained = p := by
      have := congrArg Prod.fst hcopy
      simpa [ioCopy] using this
    have hcopy2 : rd.err = GoError.eof := by
      have := congrArg Prod.snd hcopy
      simp only [ioCopy] at this
      by_contra hne
      rw [if_neg hne] at this
      cases this
    have hz : zlibAccepts d (ioReadAll r).1 = true := by
      unfold zlibAccepts
      rw [hrd]
      simp [hcopy2]
    rw [tryZLib_accept d _ hz]
    unfold zlibWritten
    rw [hrd]
    simp [hcopy1]
  · intro hz hw hcopy
    have hcopy1 : (d.flateNewReader (ioReadAll r).1).drained = p := by
      have := congrArg Prod.fst hcopy
      simpa [ioCopy] using this
    have hcopy2 : (d.flateNewReader (ioReadAll r).1).err = GoError.eof := by
      have := congrArg Prod.snd hcopy
      simp only [ioCopy] at this
      by_contra hne
      rw [if_neg hne] at this
      cases this
    have hf : deflateAccepts d (ioReadAll r).1 = true := by
      unfold deflateAccepts
      simp [hcopy2]
    rw [tryZLib_reject d _ hz, tryDeflate_accept d _ _ hf, hw, hcopy1]
    rfl
  · intro hz hf hlzo
    have ho : lzoAccepts d (ioReadAll r).1 = true := by
      unfold lzoAccepts
      rw [hlzo]
      rfl
    rw [tryZLib_reject d _ hz, tryDeflate_reject d _ _ hf, tryLZO1X_accept d _ ho, hlzo]
  · intro hz hf ho buf n hlz4 hn0 hn1 htake
    have h4 : lz4Accepts d (ioReadAll r).1 = true := by
      unfold lz4Accepts
      rw [hlz4]
      rfl
    rw [tryZLib_reject d _ hz, tryDeflate_reject d _ _ hf, tryLZO1X_reject d _ ho,
      tryLZ4_accept d _ h4, hlz4]
    simp only
    rw [if_pos ⟨hn0, hn1⟩, htake]
  · intro hz hf ho h4 hrd hlen
    have hw : lzwAccepts d (ioReadAll r).1 = true := by
      unfold lzwAccepts
      rw [hrd]
      rfl
    rw [tryZLib_reject d _ hz, tryDeflate_reject d _ _ hf, tryLZO1X_reject d _ ho,
      tryLZ4_reject d _ h4, tryLZW_accept d _ hw, hrd]
    simp only
    rw [if_pos hlen]

/-- Witness of C3, amended: the stored-block deflate stream of "the quick brown fox" comes
back as Deflate with exactly that text. -/
theorem TryExtract_round_trip_witness :
    (ioReadAll (bytesReader foxInput)).2 = none
    ∧ ioCopy [] (foxSuite.flateNewReader (ioReadAll (bytesReader foxInput)).1) = (foxText, none)
    ∧ TryExtract foxSuite (bytesReader foxInput) = Outcome.ret Deflate (some foxText) none :=
  ⟨by decide, by decide,
    (TryExtract_round_trip foxSuite (bytesReader foxInput) foxText (by decide)).2.1
      (by decide) (by decide) (by decide)⟩

end Compressionid
